import Mathlib

/-
Verification development for the Geo level editor / physics engine
(source: src/types.ts, src/constants.ts, src/components/GameEngine.tsx,
src/App.tsx).  JavaScript numbers are modelled as rationals; JS string
colors of the form RRGGBB in hex are modelled as triples of integer
channels; JSON snapshot strings are modelled as the structured values they
serialize (stringify/parse round-trips for this plain data).
-/

namespace Geo

/-! ### JavaScript numeric helpers -/

/-- JS Math.round: rounds half toward positive infinity. -/
def jsRound (x : ℚ) : ℤ := ⌊x + 1/2⌋

/-- Truncation toward zero, as used by the JS % operator. -/
def jsTrunc (q : ℚ) : ℤ := if q < 0 then ⌈q⌉ else ⌊q⌋

/-- JS remainder operator x % m (sign follows the dividend). -/
def jsMod (x m : ℚ) : ℚ := x - m * (jsTrunc (x / m) : ℚ)

/-- Math.round(v * 100) / 100, the 2-decimal rounding used by move/rotate. -/
def round2 (x : ℚ) : ℚ := (jsRound (x * 100) : ℚ) / 100

/-- TILE_SIZE from constants.ts. -/
def TILE_SIZE : ℚ := 40

/-- FLOOR_Y = FLOOR_LEVEL_GRID * TILE_SIZE from constants.ts. -/
def FLOOR_Y : ℚ := 12 * TILE_SIZE

/-! ### Data model (types.ts) -/

inductive ObjectType where
  | DELETE | BLOCK | SPIKE | TOOL | PAD | ORB | DECO | PORTAL | TRIGGER | START_POS
deriving DecidableEq, Repr

inductive VehicleMode where
  | CUBE | SHIP
deriving DecidableEq, Repr

/-- An RGB hex color string, as the triple of its parsed channels. -/
structure Color where
  r : ℤ
  g : ℤ
  b : ℤ
deriving DecidableEq, Repr

inductive TriggerTarget where
  | bgColorTop | bgColorBottom | groundColor | lineColor
deriving DecidableEq, Repr

structure TriggerData where
  target : TriggerTarget
  color : Color
  duration : ℚ
  touchTrigger : Bool
deriving DecidableEq, Repr

structure StartPosData where
  mode : VehicleMode
  reverseGravity : Bool
  enabled : Bool
deriving DecidableEq, Repr

/-- LevelSettings.  startReverseGravity is optional in TS and always read
through a truthiness default, so it is modelled as a plain Bool. -/
structure LevelSettings where
  bgColorTop : Color
  bgColorBottom : Color
  groundColor : Color
  lineColor : Color
  startMode : VehicleMode
  startReverseGravity : Bool
deriving DecidableEq, Repr

/-- LevelObject.  The optional rotation field is always read through
(obj.rotation || 0) in the engine, so it is modelled as a total field. -/
structure LevelObject where
  id : String
  x : ℚ
  y : ℚ
  type : ObjectType
  subtype : ℤ
  rotation : ℚ
  triggerData : Option TriggerData
  startPosData : Option StartPosData
deriving DecidableEq, Repr

structure LevelData where
  settings : LevelSettings
  objects : List LevelObject
deriving DecidableEq, Repr

/-- DEFAULT_LEVEL_SETTINGS from constants.ts
(bgGradientTop 004e92, bgGradientBottom 000428, ground 000000, line ffffff). -/
def DEFAULT_LEVEL_SETTINGS : LevelSettings :=
  { bgColorTop := ⟨0x00, 0x4e, 0x92⟩
    bgColorBottom := ⟨0x00, 0x04, 0x28⟩
    groundColor := ⟨0x00, 0x00, 0x00⟩
    lineColor := ⟨0xff, 0xff, 0xff⟩
    startMode := VehicleMode.CUBE
    startReverseGravity := false }

/-! ### Engine editing state (GameEngine refs)

The mutable refs of the component that the editing claims concern:
levelData + levelSettings (as doc), selectedObjects (a JS Set, modelled as
its insertion-ordered id list), clipboard, history + historyIndex,
lastToolRotation and lastDeletePos.  Rendering-only refs (camera, trail,
particles, isPastedSelection, ...) are omitted. -/
structure EngineState where
  doc : LevelData
  selected : List String
  clipboard : List LevelObject
  history : List LevelData
  historyIndex : ℕ
  lastToolRotation : ℚ
  lastDeletePos : Option (ℤ × ℤ)
deriving Repr

/-- The state after mount: the initial-snapshot effect has pushed the
current document and set the index to 0. -/
def initEngine (d : LevelData) : EngineState :=
  { doc := d, selected := [], clipboard := [], history := [d]
    historyIndex := 0, lastToolRotation := 0, lastDeletePos := none }

/-- addToHistory: truncate any redo tail, append the serialized current
state, move the index to the tip, and evict the oldest entry (decrementing
the index) if the stack exceeds 50 entries. -/
def addToHistory (s : EngineState) : EngineState :=
  let h0 := if s.historyIndex < s.history.length - 1
            then s.history.take (s.historyIndex + 1) else s.history
  let h1 := h0 ++ [s.doc]
  let i1 := h1.length - 1
  if 50 < h1.length then
    { s with history := h1.drop 1, historyIndex := i1 - 1 }
  else
    { s with history := h1, historyIndex := i1 }

/-- undo: no-op at index 0, otherwise decrement the index and restore that
entry (restoreState clears the selection; an unreadable entry leaves the
document and selection untouched). -/
def undo (s : EngineState) : EngineState :=
  if 0 < s.historyIndex then
    let i := s.historyIndex - 1
    match s.history[i]? with
    | some d => { s with historyIndex := i, doc := d, selected := [] }
    | none => { s with historyIndex := i }
  else s

/-- redo: no-op at the stack tip, otherwise increment the index and restore
that entry. -/
def redo (s : EngineState) : EngineState :=
  if s.historyIndex < s.history.length - 1 then
    let i := s.historyIndex + 1
    match s.history[i]? with
    | some d => { s with historyIndex := i, doc := d, selected := [] }
    | none => { s with historyIndex := i }
  else s

/-- setLevel: replace the document (array payloads get default settings),
clear the selection, and either append a snapshot (keepHistory) or reset
the stack to a single entry at index 0. -/
def setLevel (objects : List LevelObject) (settings : Option LevelSettings)
    (keepHistory : Bool) (s : EngineState) : EngineState :=
  let st := settings.getD DEFAULT_LEVEL_SETTINGS
  let s1 := { s with doc := ⟨st, objects⟩, selected := [] }
  if keepHistory then addToHistory s1
  else { s1 with history := [s1.doc], historyIndex := 0 }

/-! ### Hitboxes and the SAT overlap test -/

structure Rect where
  x : ℚ
  y : ℚ
  w : ℚ
  h : ℚ
deriving DecidableEq, Repr

/-- getLocalHitbox: the per-type/per-subtype tile-local hitbox table. -/
def getLocalHitbox (t : ObjectType) (subtype : ℤ) : Rect :=
  match t with
  | .BLOCK => if subtype = 3 then ⟨0, 0, 40, 20⟩ else ⟨0, 0, 40, 40⟩
  | .SPIKE =>
      if subtype = 2 then ⟨16, 28, 8, 12⟩
      else if subtype = 3 then ⟨12, 24, 16, 16⟩
      else ⟨13, 16, 14, 24⟩
  | .PAD => ⟨5, 30, 30, 10⟩
  | .ORB => ⟨5, 5, 30, 30⟩
  | .PORTAL => ⟨5, -40, 30, 120⟩
  | .DECO => ⟨0, 0, 40, 40⟩
  | .TRIGGER => ⟨0, 0, 30, 30⟩
  | .START_POS => ⟨0, 0, 40, 40⟩
  | _ => ⟨0, 0, 40, 40⟩

/-- Corner list of a rect, in the order used by checkPolygonInteract. -/
def rectCorners (r : Rect) : List (ℚ × ℚ) :=
  [(r.x, r.y), (r.x + r.w, r.y), (r.x + r.w, r.y + r.h), (r.x, r.y + r.h)]

/-- Projection of a point onto an axis. -/
def projPoint (n p : ℚ × ℚ) : ℚ := n.1 * p.1 + n.2 * p.2

/-- Minimum projection of a polygon onto an axis (polygons here are the
nonempty corner lists; JS initializes the scan with plus infinity). -/
def minProj (n : ℚ × ℚ) : List (ℚ × ℚ) → ℚ
  | [] => 0
  | p :: rest => rest.foldl (fun m q => min m (projPoint n q)) (projPoint n p)

/-- Maximum projection of a polygon onto an axis. -/
def maxProj (n : ℚ × ℚ) : List (ℚ × ℚ) → ℚ
  | [] => 0
  | p :: rest => rest.foldl (fun m q => max m (projPoint n q)) (projPoint n p)

/-- The edge list of a polygon: consecutive corner pairs, wrapping around. -/
def polyEdges (pts : List (ℚ × ℚ)) : List ((ℚ × ℚ) × (ℚ × ℚ)) :=
  pts.zip (pts.rotate 1)

/-- checkPolygonInteract: Separating Axis Test of a polygon against a rect.
Returns false exactly when some edge normal of either polygon separates
the projections. -/
def checkPolygonInteract (poly1 : List (ℚ × ℚ)) (rect2 : Rect) : Bool :=
  let poly2 := rectCorners rect2
  (polyEdges poly1 ++ polyEdges poly2).all fun e =>
    let normal := (e.2.2 - e.1.2, e.1.1 - e.2.1)
    let minA := minProj normal poly1
    let maxA := maxProj normal poly1
    let minB := minProj normal poly2
    let maxB := maxProj normal poly2
    !(decide (maxA < minB) || decide (maxB < minA))

/-- The world corners of a rotated object hitbox: tile-local corners rotated
about the tile center (20,20).  c and s stand for the cosine and sine of the
rotation angle that the JS runtime computes in floating point; they are
passed in as rationals since they are irrational for general angles. -/
def rotatedHitboxCorners (obj : LevelObject) (c s : ℚ) : List (ℚ × ℚ) :=
  let hb := getLocalHitbox obj.type obj.subtype
  let objX := obj.x * TILE_SIZE
  let objY := obj.y * TILE_SIZE
  (rectCorners hb).map fun pt =>
    let lx := pt.1 - 20
    let ly := pt.2 - 20
    (objX + 20 + (lx * c - ly * s), objY + 20 + (lx * s + ly * c))

/-! ### Editing operations -/

/-- The JS Map built from an object list: id lookup where a later entry
with the same id overwrites an earlier one. -/
def mapLookup (objects : List LevelObject) (id : String) : Option LevelObject :=
  objects.foldl (fun acc o => if o.id = id then some o else acc) none

/-- handleEditorClick, placement branch (any tool other than the selection
and delete tools): reject a Start Pos at grid-x below 0; reject an occupied
cell unless the tool is Start Pos; otherwise push a new object with default
trigger/start-pos data, select it, and snapshot.  newId stands for the
random id the source generates. -/
def handlePlaceClick (tool : ObjectType × ℤ) (newId : String)
    (gridX gridY : ℤ) (s : EngineState) : EngineState :=
  let existing := s.doc.objects.find? fun o =>
    decide (o.x = (gridX : ℚ)) && decide (o.y = (gridY : ℚ))
  if tool.1 = ObjectType.START_POS ∧ gridX < 0 then s
  else if existing.isNone ∨ tool.1 = ObjectType.START_POS then
    let triggerData : Option TriggerData :=
      if tool.1 = ObjectType.TRIGGER then
        some ⟨TriggerTarget.bgColorTop, ⟨0xff, 0x00, 0x00⟩, 1/2, false⟩
      else none
    let startPosData : Option StartPosData :=
      if tool.1 = ObjectType.START_POS then
        some ⟨VehicleMode.CUBE, false, true⟩
      else none
    let obj : LevelObject :=
      { id := newId, x := (gridX : ℚ), y := (gridY : ℚ), type := tool.1
        subtype := tool.2, rotation := s.lastToolRotation
        triggerData := triggerData, startPosData := startPosData }
    addToHistory
      { s with doc := { s.doc with objects := s.doc.objects ++ [obj] }
               selected := [newId] }
  else s

/-- Overlap test of the delete tool click rect against one object, exactly
as in the delete branch: plain AABB for unrotated objects, rotated-corner
SAT otherwise (cosSin supplies the runtime cosine/sine of an angle). -/
def deleteOverlap (cosSin : ℚ → ℚ × ℚ) (clickRect : Rect)
    (obj : LevelObject) : Bool :=
  let hb := getLocalHitbox obj.type obj.subtype
  let objX := obj.x * TILE_SIZE
  let objY := obj.y * TILE_SIZE
  if obj.rotation = 0 then
    let hbx := objX + hb.x
    let hby := objY + hb.y
    decide (clickRect.x < hbx + hb.w) && decide (clickRect.x + clickRect.w > hbx) &&
    decide (clickRect.y < hby + hb.h) && decide (clickRect.y + clickRect.h > hby)
  else
    let cs := cosSin obj.rotation
    checkPolygonInteract (rotatedHitboxCorners obj cs.1 cs.2) clickRect

/-- Backwards scan of the delete branch: remove the last (top-most placed)
overlapping object, one at a time; none when nothing overlaps. -/
def removeTopmostHit (overlap : LevelObject → Bool) :
    List LevelObject → Option (List LevelObject)
  | [] => none
  | o :: rest =>
      match removeTopmostHit overlap rest with
      | some rest2 => some (o :: rest2)
      | none => if overlap o then some rest else none

/-- handleEditorClick, delete branch: skip a repeated cell during one drag
stroke, otherwise delete the top-most object overlapping the clicked cell
rect and snapshot (remembering the processed cell).  The selection is not
touched. -/
def handleDeleteClick (cosSin : ℚ → ℚ × ℚ) (isDrag : Bool)
    (gridX gridY : ℤ) (s : EngineState) : EngineState :=
  if isDrag ∧ s.lastDeletePos = some (gridX, gridY) then s
  else
    let clickRect : Rect := ⟨(gridX : ℚ) * TILE_SIZE, (gridY : ℚ) * TILE_SIZE,
                             TILE_SIZE, TILE_SIZE⟩
    match removeTopmostHit (deleteOverlap cosSin clickRect) s.doc.objects with
    | none => s
    | some objs =>
        addToHistory
          { s with doc := { s.doc with objects := objs }
                   lastDeletePos := some (gridX, gridY) }

/-- The adjusted-dx loop of moveSelectionInternal: for each selected Start
Pos that would land left of x=0 under the running delta, clamp the delta
to bring it exactly to 0. -/
def clampDx (objects : List LevelObject) (sel : List String) (dx : ℚ) : ℚ :=
  sel.foldl
    (fun adj id =>
      match mapLookup objects id with
      | some o =>
          if o.type = ObjectType.START_POS ∧ o.x + adj < 0 then -o.x else adj
      | none => adj)
    dx

/-- moveSelectionInternal: apply the clamped shared dx (and the raw dy) to
every selected object, rounding to 2 decimals, and snapshot when anything
moved.  Ids are unique by construction (randomly generated), so the
id-to-object Map of the source is modelled as a direct map over the list. -/
def moveSelectionInternal (dx dy : ℚ) (s : EngineState) : EngineState :=
  let adjustedDx := clampDx s.doc.objects s.selected dx
  let objs := s.doc.objects.map fun o =>
    if o.id ∈ s.selected then
      { o with x := round2 (o.x + adjustedDx), y := round2 (o.y + dy) }
    else o
  let moved := s.selected.any fun id => (mapLookup s.doc.objects id).isSome
  if moved then
    addToHistory { s with doc := { s.doc with objects := objs } }
  else s

/-- The single-selection rotation formula: relative or absolute angle,
normalized by the JS % operator into [0,360), snapped to the nearest
multiple of 90 for Blocks. -/
def rotateObjSingle (obj : LevelObject) (angle : ℚ) (relative : Bool) :
    LevelObject :=
  let newRot0 := if relative then obj.rotation + angle else angle
  let m := jsMod newRot0 360
  let m := if m < 0 then m + 360 else m
  let newRot := if obj.type = ObjectType.BLOCK
                then (jsRound (m / 90) : ℚ) * 90 else m
  { obj with rotation := newRot }

/-- rotateSelection, single-selection path (ids.size = 1): rewrite the
selected object with rotateObjSingle, remember the angle as the last tool
rotation, and snapshot.  (The multi-selection path rotates positions about
the selection centroid with runtime cosine/sine; it is modelled in
rotateSelectionMulti.) -/
def rotateSelectionSingle (angle : ℚ) (relative : Bool) (s : EngineState) :
    EngineState :=
  if s.selected.length = 1 then
    let memory :=
      match s.selected.head? with
      | some id =>
          match s.doc.objects.find? (fun o => o.id = id) with
          | some obj => (rotateObjSingle obj angle relative).rotation
          | none => s.lastToolRotation
      | none => s.lastToolRotation
    let objs := s.doc.objects.map fun o =>
      if o.id ∈ s.selected then rotateObjSingle o angle relative else o
    addToHistory
      { s with doc := { s.doc with objects := objs }
               lastToolRotation := memory }
  else s

/-- rotateSelection, multi-selection path: rotate each selected object's
cell center about the bounding-box centroid (c and s are the runtime
cosine/sine of the angle), round positions to 2 decimals, and add the
angle to each rotation normalized into [0,360) with no 90-degree snap. -/
def rotateSelectionMulti (angle c si : ℚ) (s : EngineState) : EngineState :=
  if s.selected.length = 1 ∨ s.selected.isEmpty then s
  else
    let centers := (s.doc.objects.filter (fun o => o.id ∈ s.selected)).map
      fun o => (o.x + 1/2, o.y + 1/2)
    match centers with
    | [] => addToHistory s
    | p0 :: rest =>
        let minX := rest.foldl (fun m q => min m q.1) p0.1
        let maxX := rest.foldl (fun m q => max m q.1) p0.1
        let minY := rest.foldl (fun m q => min m q.2) p0.2
        let maxY := rest.foldl (fun m q => max m q.2) p0.2
        let centerX := (minX + maxX) / 2
        let centerY := (minY + maxY) / 2
        let objs := s.doc.objects.map fun o =>
          if o.id ∈ s.selected then
            let dx := (o.x + 1/2) - centerX
            let dy := (o.y + 1/2) - centerY
            let rDx := dx * c - dy * si
            let rDy := dx * si + dy * c
            let m := jsMod (o.rotation + angle) 360
            let newRot := if m < 0 then m + 360 else m
            { o with x := round2 ((centerX + rDx) - 1/2)
                     y := round2 ((centerY + rDy) - 1/2)
                     rotation := newRot }
          else o
        addToHistory { s with doc := { s.doc with objects := objs } }

/-- deleteSelection: drop every selected object, clear the selection,
snapshot. -/
def deleteSelection (s : EngineState) : EngineState :=
  addToHistory
    { s with doc := { s.doc with
                      objects := s.doc.objects.filter fun o =>
                        decide (o.id ∉ s.selected) }
             selected := [] }

/-- clearLevel: empty the object list, clear the selection, snapshot;
settings untouched. -/
def clearLevel (s : EngineState) : EngineState :=
  addToHistory { s with doc := { s.doc with objects := [] }, selected := [] }

/-- copySelection: deep-copy the selected objects into the clipboard
(no-op on an empty selection). -/
def copySelection (s : EngineState) : EngineState :=
  if s.selected.isEmpty then s
  else { s with clipboard := s.doc.objects.filter fun o => o.id ∈ s.selected }

/-- pasteSelection: append a copy of each clipboard object under a fresh
id, select exactly the new ids, snapshot.  newIds stands for the random
ids the source generates, paired positionally with the clipboard. -/
def pasteSelection (newIds : List String) (s : EngineState) : EngineState :=
  if s.clipboard.isEmpty then s
  else
    let newObjs := (s.clipboard.zip newIds).map fun p => { p.1 with id := p.2 }
    addToHistory
      { s with doc := { s.doc with objects := s.doc.objects ++ newObjs }
               selected := newObjs.map (·.id) }

/-- duplicateSelection = copySelection then pasteSelection. -/
def duplicateSelection (newIds : List String) (s : EngineState) : EngineState :=
  pasteSelection newIds (copySelection s)

/-- A partial LevelSettings record (Partial of the TS interface). -/
structure SettingsPatch where
  bgColorTop : Option Color := none
  bgColorBottom : Option Color := none
  groundColor : Option Color := none
  lineColor : Option Color := none
  startMode : Option VehicleMode := none
  startReverseGravity : Option Bool := none
deriving Repr

/-- Object-spread merge of a partial settings record over full settings. -/
def mergeSettings (base : LevelSettings) (p : SettingsPatch) : LevelSettings :=
  { bgColorTop := p.bgColorTop.getD base.bgColorTop
    bgColorBottom := p.bgColorBottom.getD base.bgColorBottom
    groundColor := p.groundColor.getD base.groundColor
    lineColor := p.lineColor.getD base.lineColor
    startMode := p.startMode.getD base.startMode
    startReverseGravity := p.startReverseGravity.getD base.startReverseGravity }

/-- updateSettings: shallow-merge the patch into the level settings (and
display settings, not modelled here) and snapshot. -/
def updateSettings (p : SettingsPatch) (s : EngineState) : EngineState :=
  addToHistory
    { s with doc := { s.doc with settings := mergeSettings s.doc.settings p } }

/-- A partial TriggerData record. -/
structure TriggerPatch where
  target : Option TriggerTarget := none
  color : Option Color := none
  duration : Option ℚ := none
  touchTrigger : Option Bool := none
deriving Repr

/-- Object-spread merge of a trigger patch over the (possibly absent)
existing trigger data.  When the object had no triggerData the JS spread
yields a record holding only the patch fields; absent fields are modelled
by placeholder defaults, and the claims about this merge use only the
presence of the result. -/
def mergeTriggerData (td : Option TriggerData) (p : TriggerPatch) : TriggerData :=
  let base := td.getD ⟨TriggerTarget.bgColorTop, ⟨0, 0, 0⟩, 0, false⟩
  { target := p.target.getD base.target
    color := p.color.getD base.color
    duration := p.duration.getD base.duration
    touchTrigger := p.touchTrigger.getD base.touchTrigger }

/-- A partial StartPosData record. -/
structure StartPosPatch where
  mode : Option VehicleMode := none
  reverseGravity : Option Bool := none
  enabled : Option Bool := none
deriving Repr

/-- Object-spread merge of a start-pos patch, as mergeTriggerData. -/
def mergeStartPosData (sp : Option StartPosData) (p : StartPosPatch) :
    StartPosData :=
  let base := sp.getD ⟨VehicleMode.CUBE, false, false⟩
  { mode := p.mode.getD base.mode
    reverseGravity := p.reverseGravity.getD base.reverseGravity
    enabled := p.enabled.getD base.enabled }

/-- Replace the first object with the given id (findIndex + rewrite);
none when no object matches. -/
def replaceFirstById (id : String) (f : LevelObject → LevelObject) :
    List LevelObject → Option (List LevelObject)
  | [] => none
  | o :: rest =>
      if o.id = id then some (f o :: rest)
      else (replaceFirstById id f rest).map (o :: ·)

/-- updateSelectedTrigger: shallow-merge the patch into the triggerData of
the first currently-selected object (whatever its type) and snapshot;
no-op when the selection is empty or the id is not in the document. -/
def updateSelectedTrigger (p : TriggerPatch) (s : EngineState) : EngineState :=
  match s.selected.head? with
  | none => s
  | some id =>
      match replaceFirstById id
          (fun o => { o with triggerData := some (mergeTriggerData o.triggerData p) })
          s.doc.objects with
      | none => s
      | some objs => addToHistory { s with doc := { s.doc with objects := objs } }

/-- updateSelectedStartPos: as updateSelectedTrigger for startPosData. -/
def updateSelectedStartPos (p : StartPosPatch) (s : EngineState) : EngineState :=
  match s.selected.head? with
  | none => s
  | some id =>
      match replaceFirstById id
          (fun o => { o with startPosData := some (mergeStartPosData o.startPosData p) })
          s.doc.objects with
      | none => s
      | some objs => addToHistory { s with doc := { s.doc with objects := objs } }

/-! ### Physics fragment: the player and Block collision resolution -/

/-- The transient Player entity (the mirrored flag of the TS interface is
never set by the engine and is omitted). -/
structure Player where
  x : ℚ
  y : ℚ
  w : ℚ
  h : ℚ
  vx : ℚ
  vy : ℚ
  rotation : ℚ
  onGround : Bool
  dead : Bool
  finished : Bool
  vehicle : VehicleMode
  gravityReversed : Bool
deriving DecidableEq, Repr

/-- checkCollision: AABB overlap of the player box against the object's
hitbox when the object is unrotated, otherwise the SAT against the hitbox
corners rotated about the tile center (cosSin supplies the runtime
cosine/sine of the rotation angle). -/
def checkCollision (cosSin : ℚ → ℚ × ℚ) (p : Player) (obj : LevelObject) :
    Bool :=
  let hb := getLocalHitbox obj.type obj.subtype
  let objX := obj.x * TILE_SIZE
  let objY := obj.y * TILE_SIZE
  if obj.rotation = 0 then
    let hbx := objX + hb.x
    let hby := objY + hb.y
    decide (p.x < hbx + hb.w) && decide (p.x + p.w > hbx) &&
    decide (p.y < hby + hb.h) && decide (p.y + p.h > hby)
  else
    let cs := cosSin obj.rotation
    checkPolygonInteract (rotatedHitboxCorners obj cs.1 cs.2)
      ⟨p.x, p.y, p.w, p.h⟩

/-- die(): marks the player dead.  (The explosion particles, death markers,
color freeze and the deferred mode transition are side effects outside the
player record.) -/
def die (p : Player) : Player := { p with dead := true }

/-- The Cube branch of Block collision resolution (updatePhysics): slab
sub-faces for subtype 3, otherwise the full block; gravity-aware: under
normal gravity land on the top face if the previous-frame bottom edge was
at or above it within a tolerance of max(abs vy, 5) while descending,
under reversed gravity symmetrically on the bottom face; any other
colliding approach is fatal. -/
def cubeBlockResolve (p : Player) (obj : LevelObject) : Player :=
  let prevY := p.y - p.vy
  let blockTop := obj.y * TILE_SIZE
  let blockBottom := (obj.y + 1) * TILE_SIZE
  if obj.subtype = 3 then
    let rot := jsMod obj.rotation 360
    let isBottomSlab := |rot - 180| < 10
    let sTop := if isBottomSlab then obj.y * TILE_SIZE + 20 else obj.y * TILE_SIZE
    let sBot := if isBottomSlab then obj.y * TILE_SIZE + 40 else obj.y * TILE_SIZE + 20
    if !p.gravityReversed then
      if prevY + p.h ≤ sTop + max |p.vy| 5 ∧ 0 ≤ p.vy then
        { p with y := sTop - p.h, vy := 0, onGround := true, rotation := 0 }
      else die p
    else
      if prevY ≥ sBot - max |p.vy| 5 ∧ p.vy ≤ 0 then
        { p with y := sBot, vy := 0, onGround := true, rotation := 0 }
      else die p
  else
    if !p.gravityReversed then
      if prevY + p.h ≤ blockTop + max |p.vy| 5 ∧ 0 ≤ p.vy then
        { p with y := blockTop - p.h, vy := 0, onGround := true, rotation := 0 }
      else die p
    else
      if prevY ≥ blockBottom - max |p.vy| 5 ∧ p.vy ≤ 0 then
        { p with y := blockBottom, vy := 0, onGround := true, rotation := 0 }
      else die p

/-- The Ship branch of Block collision resolution: snap to the approached
face with a fixed 15px window, no persistent onGround, fatal otherwise. -/
def shipBlockResolve (p : Player) (obj : LevelObject) : Player :=
  let prevY := p.y - p.vy
  let blockTop := obj.y * TILE_SIZE
  let blockBottom := (obj.y + 1) * TILE_SIZE
  if obj.subtype = 3 then
    let rot := jsMod obj.rotation 360
    let isBottomSlab := |rot - 180| < 10
    let sTop := if isBottomSlab then obj.y * TILE_SIZE + 20 else obj.y * TILE_SIZE
    let sBot := if isBottomSlab then obj.y * TILE_SIZE + 40 else obj.y * TILE_SIZE + 20
    if prevY + p.h ≤ sTop + 15 ∧ 0 ≤ p.vy then { p with y := sTop - p.h, vy := 0 }
    else if prevY ≥ sBot - 15 ∧ p.vy ≤ 0 then { p with y := sBot, vy := 0 }
    else die p
  else
    if prevY + p.h ≤ blockTop + 15 ∧ 0 ≤ p.vy then
      { p with y := blockTop - p.h, vy := 0 }
    else if prevY ≥ blockBottom - 15 ∧ p.vy ≤ 0 then
      { p with y := blockBottom, vy := 0 }
    else die p

/-- Block collision resolution dispatch on the vehicle. -/
def blockResolve (p : Player) (obj : LevelObject) : Player :=
  if p.vehicle = VehicleMode.SHIP then shipBlockResolve p obj
  else cubeBlockResolve p obj

/-! ### Start position selection (resetPlayerInternal) -/

/-- Stable insertion of an element after every earlier element that the
comparator places at-or-before it. -/
def insertStable (le : α → α → Bool) (x : α) : List α → List α
  | [] => [x]
  | y :: ys => if le y x then y :: insertStable le x ys else x :: y :: ys

/-- Stable sort by a comparator (models Array.prototype.sort, which is
specified stable; the results agree whenever the comparator induces a
total preorder, as in the cases proved below). -/
def sortStable (le : α → α → Bool) (l : List α) : List α :=
  l.foldl (fun acc x => insertStable le x acc) []

/-- The start-position sort comparator: ascending x when the xs differ by
more than 0.01, otherwise descending insertion index. -/
def startPosCmp (a b : LevelObject × ℕ) : ℚ :=
  if |a.1.x - b.1.x| > 1/100 then a.1.x - b.1.x
  else ((b.2 : ℤ) : ℚ) - ((a.2 : ℤ) : ℚ)

/-- Pair each object with its insertion index, starting at n. -/
def withIndicesFrom (n : ℕ) : List LevelObject → List (LevelObject × ℕ)
  | [] => []
  | o :: rest => (o, n) :: withIndicesFrom (n + 1) rest

/-- The enabled Start Pos objects of a document, paired with their
insertion index, sorted by the comparator. -/
def sortedStartPositions (objects : List LevelObject) :
    List (LevelObject × ℕ) :=
  let indexed := (withIndicesFrom 0 objects).filter fun it =>
    decide (it.1.type = ObjectType.START_POS) &&
      (match it.1.startPosData with
       | some d => d.enabled
       | none => false)
  sortStable (fun a b => decide (startPosCmp a b ≤ 0)) indexed

/-- The spawn data computed by resetPlayerInternal: position in pixels,
vehicle mode, gravity flag.  Default spawn at (0, 11*TILE) with the
document's start mode/gravity; when not verifying, the first sorted
enabled Start Pos overrides it. -/
def resetSpawn (forVerify : Bool) (d : LevelData) :
    ℚ × ℚ × VehicleMode × Bool :=
  let defaults := ((0 : ℚ), 11 * TILE_SIZE, d.settings.startMode,
                   d.settings.startReverseGravity)
  if forVerify then defaults
  else
    match sortedStartPositions d.objects with
    | [] => defaults
    | best :: _ =>
        match best.1.startPosData with
        | some spd =>
            (best.1.x * TILE_SIZE, best.1.y * TILE_SIZE, spd.mode,
             spd.reverseGravity)
        | none => defaults

/-! ### Trigger and color-effect system -/

/-- ColorEffect (duration is in frames: configured seconds times 60,
which can be fractional). -/
structure ColorEffect where
  target : TriggerTarget
  startColor : Color
  endColor : Color
  startTime : ℕ
  duration : ℚ
deriving DecidableEq, Repr

/-- Read the display color of a trigger target channel. -/
def getTargetColor (s : LevelSettings) : TriggerTarget → Color
  | .bgColorTop => s.bgColorTop
  | .bgColorBottom => s.bgColorBottom
  | .groundColor => s.groundColor
  | .lineColor => s.lineColor

/-- Write the display color of a trigger target channel. -/
def setTargetColor (s : LevelSettings) (t : TriggerTarget) (c : Color) :
    LevelSettings :=
  match t with
  | .bgColorTop => { s with bgColorTop := c }
  | .bgColorBottom => { s with bgColorBottom := c }
  | .groundColor => { s with groundColor := c }
  | .lineColor => { s with lineColor := c }

/-- interpolateColor: per-channel linear interpolation between two hex
colors with Math.round on each channel. -/
def interpolateColor (c1 c2 : Color) (factor : ℚ) : Color :=
  { r := jsRound ((c1.r : ℚ) + ((c2.r : ℚ) - (c1.r : ℚ)) * factor)
    g := jsRound ((c1.g : ℚ) + ((c2.g : ℚ) - (c1.g : ℚ)) * factor)
    b := jsRound ((c1.b : ℚ) + ((c2.b : ℚ) - (c1.b : ℚ)) * factor) }

/-- The color-system slice of per-frame engine state: the frame counter,
the active effects, and the display settings. -/
structure ColorState where
  frameCount : ℕ
  activeEffects : List ColorEffect
  display : LevelSettings
deriving DecidableEq, Repr

/-- One frame of the gameplay color logic (update, alive in
Playtest/Verify): increment the frame counter, drop effects whose time is
up, then let every surviving effect write its clamped linear interpolation
into its target channel. -/
def colorFrameStep (cs : ColorState) : ColorState :=
  let fc := cs.frameCount + 1
  let effs := cs.activeEffects.filter fun e =>
    decide ((fc : ℚ) < (e.startTime : ℚ) + e.duration)
  let disp := effs.foldl
    (fun d e =>
      let progress := ((fc : ℚ) - (e.startTime : ℚ)) / e.duration
      let clamped := min 1 (max 0 progress)
      setTargetColor d e.target (interpolateColor e.startColor e.endColor clamped))
    cs.display
  ⟨fc, effs, disp⟩

/-- Trigger activation (updatePhysics): a zero-duration trigger snaps the
display channel; otherwise a new effect is enqueued recording the
channel's current display color as interpolation start and the configured
color as end, starting at the current frame with duration in frames. -/
def fireTrigger (td : TriggerData) (cs : ColorState) : ColorState :=
  let durationFrames := td.duration * 60
  if durationFrames = 0 then
    { cs with display := setTargetColor cs.display td.target td.color }
  else
    { cs with activeEffects := cs.activeEffects ++
        [⟨td.target, getTargetColor cs.display td.target, td.color,
          cs.frameCount, durationFrames⟩] }

/-! ### Operation sequences over the document and history -/

/-- A mutating editing operation as it affects the document and history:
an arbitrary document transformation followed by the snapshot that every
mutating operation records. -/
def applyMutation (f : LevelData → LevelData) (s : EngineState) : EngineState :=
  addToHistory { s with doc := f s.doc }

/-- Run a sequence of mutating operations. -/
def runMutations (s : EngineState) (fs : List (LevelData → LevelData)) :
    EngineState :=
  fs.foldl (fun t f => applyMutation f t) s

/-- The operations that touch the history stack. -/
inductive HistOp where
  | mutateDoc (f : LevelData → LevelData)
  | undoOp
  | redoOp
  | loadOp (objects : List LevelObject) (settings : Option LevelSettings)
      (keepHistory : Bool)

def applyHistOp (s : EngineState) : HistOp → EngineState
  | .mutateDoc f => applyMutation f s
  | .undoOp => undo s
  | .redoOp => redo s
  | .loadOp objs st keep => setLevel objs st keep s

def runHistOps (s : EngineState) (ops : List HistOp) : EngineState :=
  ops.foldl applyHistOp s

/-- The current document sits at the tip of the history stack. -/
def AtTip (s : EngineState) : Prop :=
  s.history.length ≠ 0 ∧ s.historyIndex = s.history.length - 1 ∧
    s.history[s.historyIndex]? = some s.doc

theorem addToHistory_doc (s : EngineState) : (addToHistory s).doc = s.doc := by
  simp only [addToHistory]
  split <;> split <;> rfl

theorem addToHistory_atTip (s : EngineState) : AtTip (addToHistory s) := by
  simp only [addToHistory]
  generalize (if s.historyIndex < s.history.length - 1
              then s.history.take (s.historyIndex + 1) else s.history) = h0
  unfold AtTip
  have hlen : (h0 ++ [s.doc]).length = h0.length + 1 := by simp
  split
  · refine ⟨?_, ?_, ?_⟩
    · have h50 : 50 < (h0 ++ [s.doc]).length := by assumption
      simp only [List.length_drop, hlen]
      omega
    · simp only [List.length_drop, hlen]
    · have h50 : 50 < (h0 ++ [s.doc]).length := by assumption
      have hpos : 0 < h0.length := by omega
      have h1 : (h0 ++ [s.doc]).length - 1 - 1 = h0.length - 1 := by
        simp only [hlen]; omega
      simp only [List.getElem?_drop, hlen, h1]
      have h2 : 1 + (h0.length + 1 - 1 - 1) = h0.length := by omega
      rw [h2, List.getElem?_concat_length]
  · refine ⟨?_, rfl, ?_⟩
    · simp [hlen]
    · simp only [hlen, Nat.add_sub_cancel]
      exact List.getElem?_concat_length h0 s.doc

theorem initEngine_atTip (d : LevelData) : AtTip (initEngine d) := by
  refine ⟨by simp [initEngine], by simp [initEngine], ?_⟩
  simp [initEngine]

theorem runMutations_atTip (s : EngineState)
    (fs : List (LevelData → LevelData)) (h : AtTip s) :
    AtTip (runMutations s fs) := by
  induction fs generalizing s with
  | nil => exact h
  | cons f fs ih =>
      exact ih (applyMutation f s) (addToHistory_atTip _)

theorem atTip_undo_redo (s : EngineState) (h : AtTip s) :
    (redo (undo s)).doc = s.doc := by
  obtain ⟨hne, hidx, hget⟩ := h
  by_cases h0 : 0 < s.historyIndex
  · have hlen2 : 2 ≤ s.history.length := by omega
    have hi : s.historyIndex - 1 < s.history.length := by omega
    obtain ⟨d', hd'⟩ : ∃ d', s.history[s.historyIndex - 1]? = some d' := by
      rw [List.getElem?_eq_getElem hi]; exact ⟨_, rfl⟩
    have hundo : undo s =
        { s with historyIndex := s.historyIndex - 1, doc := d', selected := [] } := by
      simp only [undo, if_pos h0, hd']
    rw [hundo]
    have hguard : s.historyIndex - 1 < s.history.length - 1 := by omega
    have hplus : s.historyIndex - 1 + 1 = s.historyIndex := by omega
    simp only [redo, if_pos hguard, hplus, hget]
  · have hundo : undo s = s := by simp only [undo, if_neg h0]
    rw [hundo]
    have : ¬ s.historyIndex < s.history.length - 1 := by omega
    simp only [redo, if_neg this]

/-- C2: for every sequence of mutating editing operations (each ending by
recording a snapshot), undo() followed immediately by redo() restores
exactly the document (objects and settings) current before the undo. -/
theorem C2_undo_redo_roundtrip (d : LevelData)
    (fs : List (LevelData → LevelData)) :
    (redo (undo (runMutations (initEngine d) fs))).doc =
      (runMutations (initEngine d) fs).doc :=
  atTip_undo_redo _ (runMutations_atTip _ fs (initEngine_atTip d))

/-- History length and index stay in range. -/
def HistoryBound (s : EngineState) : Prop :=
  s.history.length ≤ 50 ∧ s.historyIndex < s.history.length

theorem addToHistory_bound (s : EngineState) (h : s.history.length ≤ 50) :
    HistoryBound (addToHistory s) := by
  unfold HistoryBound
  simp only [addToHistory]
  have h0le : (if s.historyIndex < s.history.length - 1
               then s.history.take (s.historyIndex + 1)
               else s.history).length ≤ s.history.length := by
    split
    · simp
    · exact le_rfl
  generalize hg : (if s.historyIndex < s.history.length - 1
                   then s.history.take (s.historyIndex + 1)
                   else s.history) = h0 at h0le
  have hlen : (h0 ++ [s.doc]).length = h0.length + 1 := by simp
  split
  · constructor <;> simp only [List.length_drop, hlen] <;> omega
  · have : ¬ 50 < (h0 ++ [s.doc]).length := by assumption
    constructor <;> simp only [hlen] <;> omega

theorem undo_history (s : EngineState) : (undo s).history = s.history := by
  simp only [undo]
  split
  · cases s.history[s.historyIndex - 1]? <;> rfl
  · rfl

theorem redo_history (s : EngineState) : (redo s).history = s.history := by
  simp only [redo]
  split
  · cases s.history[s.historyIndex + 1]? <;> rfl
  · rfl

theorem undo_index_le (s : EngineState) :
    (undo s).historyIndex ≤ s.historyIndex := by
  simp only [undo]
  split
  · cases s.history[s.historyIndex - 1]? <;> simp
  · exact le_rfl

theorem redo_bound (s : EngineState) (h : HistoryBound s) :
    HistoryBound (redo s) := by
  obtain ⟨h1, h2⟩ := h
  unfold HistoryBound
  simp only [redo]
  split
  · have hg : s.historyIndex < s.history.length - 1 := by assumption
    cases s.history[s.historyIndex + 1]? <;> constructor <;> simp <;> omega
  · exact ⟨h1, h2⟩

theorem applyHistOp_bound (s : EngineState) (op : HistOp)
    (h : HistoryBound s) : HistoryBound (applyHistOp s op) := by
  obtain ⟨h1, h2⟩ := h
  cases op with
  | mutateDoc f => exact addToHistory_bound _ h1
  | undoOp =>
      show HistoryBound (undo s)
      refine ⟨by rw [undo_history]; exact h1, ?_⟩
      calc (undo s).historyIndex ≤ s.historyIndex := undo_index_le s
      _ < s.history.length := h2
      _ = (undo s).history.length := by rw [undo_history]
  | redoOp => exact redo_bound s ⟨h1, h2⟩
  | loadOp objs st keep =>
      show HistoryBound (setLevel objs st keep s)
      simp only [setLevel]
      split
      · exact addToHistory_bound _ (by simpa using h1)
      · constructor <;> simp

theorem runHistOps_bound (s : EngineState) (ops : List HistOp)
    (h : HistoryBound s) : HistoryBound (runHistOps s ops) := by
  induction ops generalizing s with
  | nil => exact h
  | cons op ops ih => exact ih _ (applyHistOp_bound s op h)

/-- C3: after every operation the history stack holds at most 50 entries;
a snapshot recorded at a full stack of 50 evicts the oldest entry FIFO,
keeps the index at the tip (decremented to compensate for the shift), and
shifts every surviving entry down by one, preserving the relative
undo/redo reachability of the more recent states. -/
theorem C3_history_cap_eviction :
    (∀ (d : LevelData) (ops : List HistOp),
        (runHistOps (initEngine d) ops).history.length ≤ 50) ∧
    (∀ (s : EngineState) (f : LevelData → LevelData),
        s.history.length = 50 → s.historyIndex = 49 →
        (applyMutation f s).history = s.history.drop 1 ++ [f s.doc] ∧
        (applyMutation f s).historyIndex = 49 ∧
        ∀ k : ℕ, k < 49 →
          (applyMutation f s).history[k]? = s.history[k + 1]?) := by
  constructor
  · intro d ops
    have hinit : HistoryBound (initEngine d) := by
      constructor <;> simp [initEngine]
    exact (runHistOps_bound _ ops hinit).1
  · intro s f hlen hidx
    have key : (applyMutation f s).history = s.history.drop 1 ++ [f s.doc] ∧
        (applyMutation f s).historyIndex = 49 := by
      have hguard : ¬ s.historyIndex < s.history.length - 1 := by omega
      have hlen1 : (s.history ++ [f s.doc]).length = 51 := by simp [hlen]
      have h50 : 50 < (s.history ++ [f s.doc]).length := by rw [hlen1]; omega
      simp only [applyMutation, addToHistory, hguard, if_false, h50, if_true]
      constructor
      · rw [List.drop_append_of_le_length (by omega)]
      · simp [hlen1]
    refine ⟨key.1, key.2, ?_⟩
    intro k hk
    rw [key.1]
    have hdroplen : (s.history.drop 1).length = 49 := by simp [hlen]
    rw [List.getElem?_append_left (by omega), List.getElem?_drop]
    congr 1
    omega

/-- An empty document with default settings. -/
def emptyDoc : LevelData := ⟨DEFAULT_LEVEL_SETTINGS, []⟩

/-- An engine state whose history stack is full (50 entries, index at the
tip). -/
def fullHistoryState : EngineState :=
  { doc := emptyDoc, selected := [], clipboard := []
    history := List.replicate 50 emptyDoc, historyIndex := 49
    lastToolRotation := 0, lastDeletePos := none }

theorem C3_history_cap_eviction_witness :
    (applyMutation (fun d => d) fullHistoryState).history =
      fullHistoryState.history.drop 1 ++ [fullHistoryState.doc] ∧
    (applyMutation (fun d => d) fullHistoryState).historyIndex = 49 :=
  ⟨(C3_history_cap_eviction.2 fullHistoryState (fun d => d)
      (by simp [fullHistoryState]) rfl).1,
   (C3_history_cap_eviction.2 fullHistoryState (fun d => d)
      (by simp [fullHistoryState]) rfl).2.1⟩

/-! ### C4: occupied-cell and negative-x placement rejection -/

/-- C4: placing on an occupied integer grid cell is rejected for every
tool type except StartPos — no object is added, no snapshot is recorded,
no exception is raised (the operation is a total function returning the
state unchanged) — and a StartPos placement at grid-x below 0 is likewise
silently rejected. -/
theorem C4_placement_rejection (tool : ObjectType × ℤ) (newId : String)
    (gridX gridY : ℤ) (s : EngineState) :
    ((∃ o ∈ s.doc.objects, o.x = (gridX : ℚ) ∧ o.y = (gridY : ℚ)) →
        tool.1 ≠ ObjectType.START_POS →
        handlePlaceClick tool newId gridX gridY s = s) ∧
    (tool.1 = ObjectType.START_POS → gridX < 0 →
        handlePlaceClick tool newId gridX gridY s = s) := by
  constructor
  · intro hex hnsp
    have hsome : (s.doc.objects.find? fun o =>
        decide (o.x = (gridX : ℚ)) && decide (o.y = (gridY : ℚ))).isSome := by
      rw [List.find?_isSome]
      obtain ⟨o, ho, hx, hy⟩ := hex
      exact ⟨o, ho, by simp [hx, hy]⟩
    obtain ⟨v, hv⟩ := Option.isSome_iff_exists.mp hsome
    simp only [handlePlaceClick, hv, Option.isNone_some]
    rw [if_neg (by simp [hnsp]), if_neg (by simp [hnsp])]
  · intro hsp hneg
    simp only [handlePlaceClick]
    rw [if_pos ⟨hsp, hneg⟩]

/-- A sample document object used by concrete instances below. -/
def blockAt (id : String) (x y : ℚ) : LevelObject :=
  { id := id, x := x, y := y, type := ObjectType.BLOCK, subtype := 1
    rotation := 0, triggerData := none, startPosData := none }

/-- A sample enabled StartPos object. -/
def startPosAt (id : String) (x y : ℚ) : LevelObject :=
  { id := id, x := x, y := y, type := ObjectType.START_POS, subtype := 1
    rotation := 0, triggerData := none
    startPosData := some ⟨VehicleMode.CUBE, false, true⟩ }

theorem C4_placement_rejection_witness :
    handlePlaceClick (ObjectType.BLOCK, 1) "n" 2 3
        (initEngine ⟨DEFAULT_LEVEL_SETTINGS, [blockAt "a" 2 3]⟩) =
      initEngine ⟨DEFAULT_LEVEL_SETTINGS, [blockAt "a" 2 3]⟩ :=
  (C4_placement_rejection (ObjectType.BLOCK, 1) "n" 2 3 _).1
    ⟨blockAt "a" 2 3, by simp [initEngine], by norm_num [blockAt],
      by norm_num [blockAt]⟩
    (by decide)

/-! ### C5: StartPos clamp in moveSelection -/

theorem mapLookup_id (objects : List LevelObject) (id : String) :
    ∀ o, mapLookup objects id = some o → o.id = id := by
  unfold mapLookup
  suffices h : ∀ (acc : Option LevelObject),
      (∀ o, acc = some o → o.id = id) →
      ∀ o, objects.foldl (fun acc o => if o.id = id then some o else acc) acc
        = some o → o.id = id by
    exact h none (by intro o h; cases h)
  induction objects with
  | nil => intro acc hacc o h; exact hacc o h
  | cons x xs ih =>
      intro acc hacc o h
      refine ih _ ?_ o h
      intro o' ho'
      dsimp only at ho'
      by_cases hx : x.id = id
      · rw [if_pos hx] at ho'
        cases ho'
        exact hx
      · rw [if_neg hx] at ho'
        exact hacc o' ho'

/-- One step of the clampDx fold, evaluated under the assumption that sp
is the unique selected StartPos: a non-sp id leaves the running delta
untouched, sp's own id applies the clamp test. -/
theorem clampStep_eq (objects : List LevelObject) (sp : LevelObject)
    (hsptype : sp.type = ObjectType.START_POS)
    (hlook : mapLookup objects sp.id = some sp)
    (id : String) (adj : ℚ)
    (huniq : ∀ o, mapLookup objects id = some o →
        o.type = ObjectType.START_POS → o = sp) :
    (match mapLookup objects id with
     | some o =>
         if o.type = ObjectType.START_POS ∧ o.x + adj < 0 then -o.x else adj
     | none => adj) =
      (if id = sp.id then (if sp.x + adj < 0 then -sp.x else adj) else adj) := by
  by_cases hid : id = sp.id
  · subst hid
    rw [hlook]
    by_cases hc : sp.x + adj < 0
    · simp [hsptype, hc]
    · simp [hsptype, hc]
  · rw [if_neg hid]
    cases hml : mapLookup objects id with
    | none => rfl
    | some o =>
        by_cases hsp : o.type = ObjectType.START_POS
        · exfalso
          have ho : o = sp := huniq o hml hsp
          have hoid : o.id = id := mapLookup_id objects id o hml
          exact hid (by rw [← hoid, ho])
        · simp [hsp]

/-- The clamp fold: starting from -sp.x it stays there; starting from the
violating dx it ends at -sp.x as soon as sp is in the selection, and at
dx when it is not. -/
theorem clampFold_spec (objects : List LevelObject) (sp : LevelObject)
    (dx : ℚ) (hsptype : sp.type = ObjectType.START_POS)
    (hlook : mapLookup objects sp.id = some sp)
    (hviol : sp.x + dx < 0) :
    ∀ (sel : List String),
      (∀ id ∈ sel, ∀ o, mapLookup objects id = some o →
          o.type = ObjectType.START_POS → o = sp) →
      (clampDx objects sel (-sp.x) = -sp.x) ∧
      (sp.id ∈ sel → clampDx objects sel dx = -sp.x) ∧
      (sp.id ∉ sel → clampDx objects sel dx = dx) := by
  intro sel
  induction sel with
  | nil =>
      intro _
      refine ⟨rfl, ?_, fun _ => rfl⟩
      intro h
      cases h
  | cons id rest ih =>
      intro huniq
      have huniq_head : ∀ o, mapLookup objects id = some o →
          o.type = ObjectType.START_POS → o = sp :=
        huniq id (List.mem_cons_self id rest)
      have huniq_rest : ∀ i ∈ rest, ∀ o, mapLookup objects i = some o →
          o.type = ObjectType.START_POS → o = sp :=
        fun i hi => huniq i (List.mem_cons_of_mem id hi)
      obtain ⟨ih1, ih2, ih3⟩ := ih huniq_rest
      have hfold : ∀ a : ℚ, clampDx objects (id :: rest) a =
          clampDx objects rest
            (match mapLookup objects id with
             | some o =>
                 if o.type = ObjectType.START_POS ∧ o.x + a < 0 then -o.x else a
             | none => a) := by
        intro a
        rfl
      refine ⟨?_, ?_, ?_⟩
      · rw [hfold, clampStep_eq objects sp hsptype hlook id _ huniq_head]
        have hnc : ¬ sp.x + -sp.x < 0 := by simp
        by_cases hid : id = sp.id
        · rw [if_pos hid, if_neg hnc]
          exact ih1
        · rw [if_neg hid]
          exact ih1
      · intro hmem
        rw [hfold, clampStep_eq objects sp hsptype hlook id _ huniq_head]
        by_cases hid : id = sp.id
        · rw [if_pos hid, if_pos hviol]
          exact ih1
        · rw [if_neg hid]
          have : sp.id ∈ rest := by
            cases List.mem_cons.mp hmem with
            | inl h => exact absurd h.symm hid
            | inr h => exact h
          exact ih2 this
      · intro hnmem
        have hid : ¬ id = sp.id := fun h => hnmem (h ▸ List.mem_cons_self id rest)
        have hrest : sp.id ∉ rest := fun h => hnmem (List.mem_cons_of_mem id h)
        rw [hfold, clampStep_eq objects sp hsptype hlook id _ huniq_head,
          if_neg hid]
        exact ih3 hrest

/-- C5: when the selection contains a StartPos sp with sp.x + dx below 0
(sp being the selection's unique StartPos), the shared horizontal delta is
clamped once for the whole batch to -sp.x, the StartPos lands exactly at
x = 0, and the identical clamped delta is applied uniformly to every
selected object (dy untouched). -/
theorem C5_moveSelection_clamp (dx dy : ℚ) (s : EngineState)
    (sp : LevelObject)
    (hsel : sp.id ∈ s.selected)
    (hsptype : sp.type = ObjectType.START_POS)
    (hviol : sp.x + dx < 0)
    (hlook : mapLookup s.doc.objects sp.id = some sp)
    (huniq : ∀ id ∈ s.selected, ∀ o, mapLookup s.doc.objects id = some o →
        o.type = ObjectType.START_POS → o = sp) :
    clampDx s.doc.objects s.selected dx = -sp.x ∧
    round2 (sp.x + clampDx s.doc.objects s.selected dx) = 0 ∧
    (moveSelectionInternal dx dy s).doc.objects =
      s.doc.objects.map (fun o =>
        if o.id ∈ s.selected then
          { o with x := round2 (o.x + -sp.x), y := round2 (o.y + dy) }
        else o) := by
  have hclamp : clampDx s.doc.objects s.selected dx = -sp.x :=
    (clampFold_spec s.doc.objects sp dx hsptype hlook hviol s.selected huniq).2.1
      hsel
  have hzero : round2 (sp.x + clampDx s.doc.objects s.selected dx) = 0 := by
    rw [hclamp]
    have : sp.x + -sp.x = 0 := by ring
    rw [this]
    unfold round2 jsRound
    norm_num
  refine ⟨hclamp, hzero, ?_⟩
  have hmoved : (s.selected.any fun id =>
      (mapLookup s.doc.objects id).isSome) = true := by
    rw [List.any_eq_true]
    exact ⟨sp.id, hsel, by rw [hlook]; rfl⟩
  simp only [moveSelectionInternal, hclamp, hmoved, if_true, addToHistory_doc]

/-- The concrete state for the C5 instance: an enabled StartPos at x=3 and
a Block at x=5, both selected. -/
def spW : LevelObject := startPosAt "s" 3 2

def blkW : LevelObject := blockAt "b" 5 2

def stateW : EngineState :=
  { initEngine ⟨DEFAULT_LEVEL_SETTINGS, [spW, blkW]⟩ with selected := ["s", "b"] }

theorem C5_moveSelection_clamp_witness :
    clampDx stateW.doc.objects stateW.selected (-10) = -spW.x ∧
    round2 (spW.x + clampDx stateW.doc.objects stateW.selected (-10)) = 0 ∧
    (moveSelectionInternal (-10) 0 stateW).doc.objects =
      stateW.doc.objects.map (fun o =>
        if o.id ∈ stateW.selected then
          { o with x := round2 (o.x + -spW.x), y := round2 (o.y + 0) }
        else o) := by
  apply C5_moveSelection_clamp
  · simp [stateW, spW, startPosAt, initEngine]
  · rfl
  · norm_num [spW, startPosAt]
  · simp [mapLookup, stateW, initEngine, spW, blkW, startPosAt, blockAt]
  · intro id hid o hml htype
    simp only [stateW, initEngine, List.mem_cons, List.not_mem_nil, or_false] at hid
    rcases hid with h | h <;> subst h
    · simp [mapLookup, stateW, initEngine, spW, blkW, startPosAt, blockAt] at hml
      rw [← hml]
      simp [spW, startPosAt]
    · exfalso
      simp [mapLookup, stateW, initEngine, spW, blkW, startPosAt, blockAt] at hml
      rw [← hml] at htype
      simp [blkW, blockAt] at htype

/-! ### C6: rotation of a single selected Block -/

theorem jsMod360_mem (x : ℚ) : -360 < jsMod x 360 ∧ jsMod x 360 < 360 := by
  unfold jsMod jsTrunc
  have hx : x / 360 * 360 = x := div_mul_cancel₀ x (by norm_num)
  by_cases hq : x / 360 < 0
  · rw [if_pos hq]
    constructor
    · have h2 : ((⌈x / 360⌉ : ℚ)) < x / 360 + 1 := Int.ceil_lt_add_one _
      have h3 : ((⌈x / 360⌉ : ℚ)) * 360 < (x / 360 + 1) * 360 :=
        (mul_lt_mul_right (by norm_num : (0:ℚ) < 360)).mpr h2
      have h4 : (x / 360 + 1) * 360 = x + 360 := by rw [add_mul, hx, one_mul]
      linarith
    · have h1 : x / 360 ≤ ((⌈x / 360⌉ : ℚ)) := Int.le_ceil _
      have h3 : x / 360 * 360 ≤ ((⌈x / 360⌉ : ℚ)) * 360 :=
        (mul_le_mul_right (by norm_num : (0:ℚ) < 360)).mpr h1
      rw [hx] at h3
      linarith
  · rw [if_neg hq]
    constructor
    · have h1 : ((⌊x / 360⌋ : ℚ)) ≤ x / 360 := Int.floor_le _
      have h3 : ((⌊x / 360⌋ : ℚ)) * 360 ≤ x / 360 * 360 :=
        (mul_le_mul_right (by norm_num : (0:ℚ) < 360)).mpr h1
      rw [hx] at h3
      linarith
    · have h2 : x / 360 < ((⌊x / 360⌋ : ℚ)) + 1 := Int.lt_floor_add_one _
      have h3 : x / 360 * 360 < (((⌊x / 360⌋ : ℚ)) + 1) * 360 :=
        (mul_lt_mul_right (by norm_num : (0:ℚ) < 360)).mpr h2
      rw [hx, add_mul, one_mul] at h3
      linarith

/-- The 90-degree snap of a normalized angle lands on an integer multiple
of 90 between 0 and 360 inclusive. -/
theorem snap90_bound (m : ℚ) (h0 : 0 ≤ m) (h1 : m < 360) :
    0 ≤ (jsRound (m / 90) : ℚ) * 90 ∧ (jsRound (m / 90) : ℚ) * 90 ≤ 360 := by
  have hk0 : 0 ≤ jsRound (m / 90) := by
    unfold jsRound
    have hd : (0:ℚ) ≤ m / 90 := div_nonneg h0 (by norm_num)
    exact Int.le_floor.mpr (by push_cast; linarith)
  have hk4 : jsRound (m / 90) ≤ 4 := by
    unfold jsRound
    have hd : m / 90 < 4 := by
      rw [div_lt_iff₀ (by norm_num : (0:ℚ) < 90)]
      linarith
    have h5 : jsRound (m / 90) < 5 := by
      unfold jsRound
      exact Int.floor_lt.mpr (by push_cast; linarith)
    unfold jsRound at h5
    omega
  constructor
  · have : (0:ℚ) ≤ (jsRound (m / 90) : ℚ) := by exact_mod_cast hk0
    nlinarith
  · have : ((jsRound (m / 90) : ℚ)) ≤ 4 := by exact_mod_cast hk4
    nlinarith

/-- The per-object single-selection rotation result on a Block: a multiple
of 90 lying in [0,360] (it can equal 360 exactly). -/
theorem rotateObjSingle_block_bound (obj : LevelObject) (angle : ℚ)
    (relative : Bool) (hb : obj.type = ObjectType.BLOCK) :
    ∃ k : ℤ, (rotateObjSingle obj angle relative).rotation = (k : ℚ) * 90 ∧
      0 ≤ (rotateObjSingle obj angle relative).rotation ∧
      (rotateObjSingle obj angle relative).rotation ≤ 360 := by
  have hm0 := jsMod360_mem (if relative then obj.rotation + angle else angle)
  simp only [rotateObjSingle, hb, if_pos]
  set m0 := jsMod (if relative then obj.rotation + angle else angle) 360 with hm0def
  by_cases hneg : m0 < 0
  · rw [if_pos hneg]
    have hb0 : 0 ≤ m0 + 360 := by linarith [hm0.1]
    have hb1 : m0 + 360 < 360 := by linarith
    exact ⟨jsRound ((m0 + 360) / 90), rfl,
      (snap90_bound _ hb0 hb1).1, (snap90_bound _ hb0 hb1).2⟩
  · rw [if_neg hneg]
    have hb0 : 0 ≤ m0 := le_of_not_lt hneg
    have hb1 : m0 < 360 := hm0.2
    exact ⟨jsRound (m0 / 90), rfl,
      (snap90_bound _ hb0 hb1).1, (snap90_bound _ hb0 hb1).2⟩

/-- C6 amended: after rotateSelection on a single selected Block, for any
angle (relative or absolute), the stored rotation is an integer multiple
of 90 lying in the closed interval [0,360] — the half-open bound of the
original claim fails because a normalized angle above 315 snaps to 360. -/
theorem C6_rotation_amended (s : EngineState) (angle : ℚ) (relative : Bool)
    (o : LevelObject)
    (hmem : o ∈ (rotateSelectionSingle angle relative s).doc.objects)
    (hb : o.type = ObjectType.BLOCK) (hsel : o.id ∈ s.selected)
    (hone : s.selected.length = 1) :
    ∃ k : ℤ, o.rotation = (k : ℚ) * 90 ∧ 0 ≤ o.rotation ∧ o.rotation ≤ 360 := by
  rw [rotateSelectionSingle, if_pos hone, addToHistory_doc] at hmem
  simp only [List.mem_map] at hmem
  obtain ⟨o', _, ho'⟩ := hmem
  by_cases hin : o'.id ∈ s.selected
  · rw [if_pos hin] at ho'
    subst ho'
    have hb' : o'.type = ObjectType.BLOCK := hb
    exact rotateObjSingle_block_bound o' angle relative hb'
  · rw [if_neg hin] at ho'
    subst ho'
    exact absurd hsel hin

/-- The concrete single-selected-Block state for the C6 instances. -/
def blockSel : EngineState :=
  { initEngine ⟨DEFAULT_LEVEL_SETTINGS, [blockAt "a" 0 0]⟩ with selected := ["a"] }

/-- C6 counterexample: rotating the single selected Block to 359 degrees
stores rotation 360, a value outside [0,360), so the claim as stated (a
multiple of 90 in the half-open interval) is false. -/
theorem C6_rotation_counterexample :
    (rotateSelectionSingle 359 false blockSel).doc.objects.map
        (fun o => o.rotation) = [360] ∧
    ¬ ∃ k : ℤ, (360 : ℚ) = (k : ℚ) * 90 ∧ 0 ≤ (360 : ℚ) ∧ (360 : ℚ) < 360 := by
  constructor
  · have h359 : jsMod 359 360 = 359 := by
      unfold jsMod jsTrunc
      norm_num [Int.floor_eq_iff]
    have hround : jsRound ((359 : ℚ) / 90) = 4 := by
      unfold jsRound
      norm_num [Int.floor_eq_iff]
    have hif : (if (359 : ℚ) < 0 then (359 : ℚ) + 360 else (359 : ℚ)) = 359 := by
      norm_num
    simp [rotateSelectionSingle, blockSel, initEngine, blockAt, addToHistory_doc,
      rotateObjSingle, h359, hif, hround]
    norm_num
  · rintro ⟨k, _, _, h⟩
    exact lt_irrefl _ h

theorem C6_rotation_amended_witness :
    ∃ k : ℤ, ({ blockAt "a" 0 0 with rotation := 360 } : LevelObject).rotation
        = (k : ℚ) * 90 ∧
      0 ≤ ({ blockAt "a" 0 0 with rotation := 360 } : LevelObject).rotation ∧
      ({ blockAt "a" 0 0 with rotation := 360 } : LevelObject).rotation ≤ 360 := by
  apply C6_rotation_amended blockSel 359 false
  · have h359 : jsMod 359 360 = 359 := by
      unfold jsMod jsTrunc
      norm_num [Int.floor_eq_iff]
    have hround : jsRound ((359 : ℚ) / 90) = 4 := by
      unfold jsRound
      norm_num [Int.floor_eq_iff]
    have hif : (if (359 : ℚ) < 0 then (359 : ℚ) + 360 else (359 : ℚ)) = 359 := by
      norm_num
    simp [rotateSelectionSingle, blockSel, initEngine, blockAt, addToHistory_doc,
      rotateObjSingle, h359, hif, hround]
    norm_num
  · rfl
  · simp [blockSel, blockAt]
  · rfl

/-! ### C7: start position selection -/

theorem sortStable_pair (le : α → α → Bool) (a b : α) :
    sortStable le [a, b] = if le a b then [a, b] else [b, a] := by
  unfold sortStable
  simp only [List.foldl]
  cases h : le a b <;> simp [insertStable, h]

/-- C7 amended: with exactly two enabled StartPos objects a (placed first)
and b (placed second), the non-verify reset spawns at a only when a.x is
more than the 0.01 comparator tolerance below b.x (ascending x otherwise
up to that tolerance); within the tolerance — in particular at exactly
equal x — the most recently placed b wins.  The original claim's
"smallest grid-x" fails inside the tolerance window. -/
theorem C7_reset_amended (st : LevelSettings) (a b : LevelObject)
    (da db : StartPosData)
    (ha : a.type = ObjectType.START_POS) (hb : b.type = ObjectType.START_POS)
    (hda : a.startPosData = some da) (hdb : b.startPosData = some db)
    (hena : da.enabled = true) (henb : db.enabled = true) :
    resetSpawn false ⟨st, [a, b]⟩ =
      (if |a.x - b.x| > 1/100 then
         (if a.x ≤ b.x then
            (a.x * TILE_SIZE, a.y * TILE_SIZE, da.mode, da.reverseGravity)
          else
            (b.x * TILE_SIZE, b.y * TILE_SIZE, db.mode, db.reverseGravity))
       else (b.x * TILE_SIZE, b.y * TILE_SIZE, db.mode, db.reverseGravity)) := by
  have hfilter : (withIndicesFrom 0 [a, b]).filter (fun it =>
      decide (it.1.type = ObjectType.START_POS) &&
        (match it.1.startPosData with
         | some d => d.enabled
         | none => false)) = [(a, 0), (b, 1)] := by
    simp [withIndicesFrom, List.filter, ha, hb, hda, hdb, hena, henb]
  by_cases htol : |a.x - b.x| > 1/100
  · rw [if_pos htol]
    by_cases hle : a.x ≤ b.x
    · rw [if_pos hle]
      have hcmp : (decide (startPosCmp (a, 0) (b, 1) ≤ 0)) = true := by
        simp only [startPosCmp, if_pos htol, decide_eq_true_eq]
        linarith
      simp only [resetSpawn, sortedStartPositions, hfilter,
        sortStable_pair, hcmp, if_pos, Bool.false_eq_true, if_false, hda]
    · rw [if_neg hle]
      have hcmp : (decide (startPosCmp (a, 0) (b, 1) ≤ 0)) = false := by
        simp only [startPosCmp, if_pos htol, decide_eq_false_iff_not]
        intro hc
        exact hle (by linarith)
      simp only [resetSpawn, sortedStartPositions, hfilter,
        sortStable_pair, hcmp, Bool.false_eq_true, if_false, hdb]
  · rw [if_neg htol]
    have hcmp : (decide (startPosCmp (a, 0) (b, 1) ≤ 0)) = false := by
      simp only [startPosCmp, if_neg htol, decide_eq_false_iff_not]
      norm_num
    simp only [resetSpawn, sortedStartPositions, hfilter,
      sortStable_pair, hcmp, Bool.false_eq_true, if_false, hdb]

/-- The two StartPos objects of the C7 instances: p placed first at x=3,
q placed second at x=3.01. -/
def spFirst : LevelObject := startPosAt "p" 3 2

def spSecond : LevelObject := startPosAt "q" (301/100) 5

/-- C7 counterexample: with enabled StartPos p at x=3 (placed first) and q
at x=3.01 (placed second), the non-verify reset spawns at q (pixel x
120.4), although p has the strictly smallest grid-x and the xs are not
equal — the claim's smallest-grid-x rule (ties only at equal x) names p. -/
theorem C7_reset_counterexample :
    (resetSpawn false ⟨DEFAULT_LEVEL_SETTINGS, [spFirst, spSecond]⟩).1 =
      spSecond.x * TILE_SIZE ∧
    spFirst.x < spSecond.x ∧
    spFirst.x * TILE_SIZE ≠ spSecond.x * TILE_SIZE := by
  refine ⟨?_, ?_, ?_⟩
  · have h := C7_reset_amended DEFAULT_LEVEL_SETTINGS spFirst spSecond
      ⟨VehicleMode.CUBE, false, true⟩ ⟨VehicleMode.CUBE, false, true⟩
      rfl rfl rfl rfl rfl rfl
    rw [h]
    have htol : ¬ |spFirst.x - spSecond.x| > 1/100 := by
      have hdiff : spFirst.x - spSecond.x = -(1/100) := by
        simp only [spFirst, spSecond, startPosAt]
        norm_num
      rw [hdiff, abs_neg, abs_of_nonneg (by norm_num : (0:ℚ) ≤ 1/100)]
      norm_num
    rw [if_neg htol]
  · simp only [spFirst, spSecond, startPosAt]
    norm_num
  · simp only [spFirst, spSecond, startPosAt, TILE_SIZE]
    norm_num

theorem C7_reset_amended_witness :
    resetSpawn false ⟨DEFAULT_LEVEL_SETTINGS, [spFirst, spSecond]⟩ =
      (if |spFirst.x - spSecond.x| > 1/100 then
         (if spFirst.x ≤ spSecond.x then
            (spFirst.x * TILE_SIZE, spFirst.y * TILE_SIZE,
             VehicleMode.CUBE, false)
          else
            (spSecond.x * TILE_SIZE, spSecond.y * TILE_SIZE,
             VehicleMode.CUBE, false))
       else (spSecond.x * TILE_SIZE, spSecond.y * TILE_SIZE,
             VehicleMode.CUBE, false)) :=
  C7_reset_amended DEFAULT_LEVEL_SETTINGS spFirst spSecond
    ⟨VehicleMode.CUBE, false, true⟩ ⟨VehicleMode.CUBE, false, true⟩
    rfl rfl rfl rfl rfl rfl

/-! ### C8: trigger color interpolation -/

/-- The display settings at the moment of firing: black bgColorTop. -/
def dispBlack : LevelSettings := { DEFAULT_LEVEL_SETTINGS with bgColorTop := ⟨0, 0, 0⟩ }

/-- A bgColorTop trigger to white with a positive duration of 0.05 s
(3 frames at 60 fps). -/
def whiteTrigger : TriggerData :=
  { target := TriggerTarget.bgColorTop, color := ⟨255, 255, 255⟩
    duration := 1/20, touchTrigger := false }

/-- C8: evaluation of the color system at the failing input.  The trigger
fires at frame 0 with duration 3 frames; the display equals the start
color at the firing frame, the exact linear interpolations at frames 1
and 2 — but at frame 3 (the full duration) the effect has been dropped
before the progress-1 write, so the channel stays at the frame-2 value
(170,170,170) forever and never equals the configured (255,255,255). -/
theorem C8_trigger_expiry_evaluation :
    (fireTrigger whiteTrigger ⟨0, [], dispBlack⟩).display.bgColorTop = ⟨0, 0, 0⟩ ∧
    (colorFrameStep (fireTrigger whiteTrigger ⟨0, [], dispBlack⟩)).display.bgColorTop
      = ⟨85, 85, 85⟩ ∧
    (colorFrameStep (colorFrameStep
        (fireTrigger whiteTrigger ⟨0, [], dispBlack⟩))).display.bgColorTop
      = ⟨170, 170, 170⟩ ∧
    (colorFrameStep (colorFrameStep (colorFrameStep
        (fireTrigger whiteTrigger ⟨0, [], dispBlack⟩)))).display.bgColorTop
      = ⟨170, 170, 170⟩ ∧
    (colorFrameStep (colorFrameStep (colorFrameStep
        (fireTrigger whiteTrigger ⟨0, [], dispBlack⟩)))).activeEffects = [] ∧
    (colorFrameStep (colorFrameStep (colorFrameStep (colorFrameStep
        (fireTrigger whiteTrigger ⟨0, [], dispBlack⟩))))).display.bgColorTop
      = ⟨170, 170, 170⟩ ∧
    (⟨170, 170, 170⟩ : Color) ≠ ⟨255, 255, 255⟩ := by
  have hfire : fireTrigger whiteTrigger ⟨0, [], dispBlack⟩ =
      ⟨0, [⟨TriggerTarget.bgColorTop, ⟨0, 0, 0⟩, ⟨255, 255, 255⟩, 0, 3⟩],
        dispBlack⟩ := by
    simp only [fireTrigger, whiteTrigger, getTargetColor, dispBlack]
    norm_num
  have hs1 : colorFrameStep
      (⟨0, [⟨TriggerTarget.bgColorTop, ⟨0, 0, 0⟩, ⟨255, 255, 255⟩, 0, 3⟩],
        dispBlack⟩ : ColorState) =
      ⟨1, [⟨TriggerTarget.bgColorTop, ⟨0, 0, 0⟩, ⟨255, 255, 255⟩, 0, 3⟩],
        { dispBlack with bgColorTop := ⟨85, 85, 85⟩ }⟩ := by
    simp only [colorFrameStep, List.filter, interpolateColor, setTargetColor,
      getTargetColor, jsRound, List.foldl]
    norm_num [Int.floor_eq_iff, min_def, max_def]
  have hs2 : colorFrameStep
      (⟨1, [⟨TriggerTarget.bgColorTop, ⟨0, 0, 0⟩, ⟨255, 255, 255⟩, 0, 3⟩],
        { dispBlack with bgColorTop := ⟨85, 85, 85⟩ }⟩ : ColorState) =
      ⟨2, [⟨TriggerTarget.bgColorTop, ⟨0, 0, 0⟩, ⟨255, 255, 255⟩, 0, 3⟩],
        { dispBlack with bgColorTop := ⟨170, 170, 170⟩ }⟩ := by
    simp only [colorFrameStep, List.filter, interpolateColor, setTargetColor,
      getTargetColor, jsRound, List.foldl]
    norm_num [Int.floor_eq_iff, min_def, max_def]
  have hs3 : colorFrameStep
      (⟨2, [⟨TriggerTarget.bgColorTop, ⟨0, 0, 0⟩, ⟨255, 255, 255⟩, 0, 3⟩],
        { dispBlack with bgColorTop := ⟨170, 170, 170⟩ }⟩ : ColorState) =
      ⟨3, [], { dispBlack with bgColorTop := ⟨170, 170, 170⟩ }⟩ := by
    simp only [colorFrameStep, List.filter, List.foldl]
    norm_num
  have hs4 : colorFrameStep
      (⟨3, [], { dispBlack with bgColorTop := ⟨170, 170, 170⟩ }⟩ : ColorState) =
      ⟨4, [], { dispBlack with bgColorTop := ⟨170, 170, 170⟩ }⟩ := by
    simp [colorFrameStep]
  rw [hfire, hs1, hs2, hs3, hs4]
  refine ⟨rfl, rfl, rfl, rfl, rfl, rfl, ?_⟩
  intro h
  cases h

/-! ### C9 and C10: the editor operations and their invariants -/

/-- The editor operations of the engine's public surface (placement and
point-deletion via handleEditorClick; the rest via the imperative handle).
Runtime-supplied data — random ids, cosine/sine of rotation angles — are
constructor arguments. -/
inductive EditorOp where
  | place (tool : ObjectType × ℤ) (newId : String) (gridX gridY : ℤ)
  | pointDelete (cosSin : ℚ → ℚ × ℚ) (isDrag : Bool) (gridX gridY : ℤ)
  | deleteSel
  | move (dx dy : ℚ)
  | rotateOne (angle : ℚ) (relative : Bool)
  | rotateMany (angle c si : ℚ)
  | dup (newIds : List String)
  | clearOp
  | load (objects : List LevelObject) (settings : Option LevelSettings)
      (keepHistory : Bool)
  | undoOp
  | redoOp
  | updSettings (p : SettingsPatch)
  | updTrigger (p : TriggerPatch)
  | updStartPos (p : StartPosPatch)

def applyEditorOp (s : EngineState) : EditorOp → EngineState
  | .place tool newId gx gy => handlePlaceClick tool newId gx gy s
  | .pointDelete cs dr gx gy => handleDeleteClick cs dr gx gy s
  | .deleteSel => deleteSelection s
  | .move dx dy => moveSelectionInternal dx dy s
  | .rotateOne a r => rotateSelectionSingle a r s
  | .rotateMany a c si => rotateSelectionMulti a c si s
  | .dup ids => duplicateSelection ids s
  | .clearOp => clearLevel s
  | .load objs st k => setLevel objs st k s
  | .undoOp => undo s
  | .redoOp => redo s
  | .updSettings p => updateSettings p s
  | .updTrigger p => updateSelectedTrigger p s
  | .updStartPos p => updateSelectedStartPos p s

/-- The selection is a subset of the ids of the document's objects. -/
def SelectionInv (s : EngineState) : Prop :=
  ∀ id ∈ s.selected, ∃ o ∈ s.doc.objects, o.id = id

def isPointDelete : EditorOp → Prop
  | .pointDelete .. => True
  | _ => False

theorem addToHistory_selected (s : EngineState) :
    (addToHistory s).selected = s.selected := by
  simp only [addToHistory]
  split <;> split <;> rfl

theorem selectionInv_addToHistory (s : EngineState) (h : SelectionInv s) :
    SelectionInv (addToHistory s) := by
  unfold SelectionInv
  rw [addToHistory_selected, addToHistory_doc]
  exact h

/-- Members of a replaceFirstById result are old members, or the rewrite
of an old member carrying the looked-up id. -/
theorem replaceFirstById_mem (id : String) (f : LevelObject → LevelObject) :
    ∀ (objects objs : List LevelObject),
      replaceFirstById id f objects = some objs →
      ∀ o ∈ objs, o ∈ objects ∨ ∃ o2 ∈ objects, o2.id = id ∧ o = f o2 := by
  intro objects
  induction objects with
  | nil => intro objs h; cases h
  | cons x rest ih =>
      intro objs h o ho
      rw [replaceFirstById] at h
      by_cases hx : x.id = id
      · rw [if_pos hx] at h
        cases h
        rcases List.mem_cons.mp ho with h1 | h1
        · exact Or.inr ⟨x, List.mem_cons_self x rest, hx, h1⟩
        · exact Or.inl (List.mem_cons_of_mem x h1)
      · rw [if_neg hx] at h
        cases hrec : replaceFirstById id f rest with
        | none => rw [hrec] at h; cases h
        | some rest2 =>
            rw [hrec] at h
            cases h
            rcases List.mem_cons.mp ho with h1 | h1
            · exact Or.inl (h1 ▸ List.mem_cons_self x rest)
            · rcases ih rest2 hrec o h1 with h2 | ⟨o2, ho2, hid2, heq⟩
              · exact Or.inl (List.mem_cons_of_mem x h2)
              · exact Or.inr ⟨o2, List.mem_cons_of_mem x ho2, hid2, heq⟩

/-- Ids survive replaceFirstById when the rewrite preserves them. -/
theorem replaceFirstById_keeps_ids (id : String) (f : LevelObject → LevelObject)
    (hf : ∀ o, (f o).id = o.id) :
    ∀ (objects objs : List LevelObject),
      replaceFirstById id f objects = some objs →
      ∀ i, (∃ o ∈ objects, o.id = i) → ∃ o ∈ objs, o.id = i := by
  intro objects
  induction objects with
  | nil => intro objs h; cases h
  | cons x rest ih =>
      intro objs h i hex
      rw [replaceFirstById] at h
      obtain ⟨o, ho, hoi⟩ := hex
      by_cases hx : x.id = id
      · rw [if_pos hx] at h
        cases h
        rcases List.mem_cons.mp ho with h1 | h1
        · exact ⟨f x, List.mem_cons_self _ _, by rw [hf, ← h1, hoi]⟩
        · exact ⟨o, List.mem_cons_of_mem _ h1, hoi⟩
      · rw [if_neg hx] at h
        cases hrec : replaceFirstById id f rest with
        | none => rw [hrec] at h; cases h
        | some rest2 =>
            rw [hrec] at h
            cases h
            rcases List.mem_cons.mp ho with h1 | h1
            · exact ⟨x, List.mem_cons_self _ _, by rw [← h1, hoi]⟩
            · obtain ⟨o2, ho2, hi2⟩ := ih rest2 hrec i ⟨o, h1, hoi⟩
              exact ⟨o2, List.mem_cons_of_mem _ ho2, hi2⟩

/-- Mapping a function that preserves ids keeps the selection invariant's
witness set. -/
theorem ids_of_map (objects : List LevelObject) (f : LevelObject → LevelObject)
    (hf : ∀ o, (f o).id = o.id) (i : String)
    (hex : ∃ o ∈ objects, o.id = i) : ∃ o ∈ objects.map f, o.id = i := by
  obtain ⟨o, ho, hoi⟩ := hex
  exact ⟨f o, List.mem_map_of_mem f ho, by rw [hf, hoi]⟩

theorem selectionInv_of_selected_nil (s : EngineState)
    (h : s.selected = []) : SelectionInv s := by
  intro i hi
  rw [h] at hi
  cases hi

theorem setLevel_selected (objects : List LevelObject)
    (st : Option LevelSettings) (keep : Bool) (s : EngineState) :
    (setLevel objects st keep s).selected = [] := by
  simp only [setLevel]
  split
  · rw [addToHistory_selected]
  · rfl

theorem clearLevel_selected (s : EngineState) :
    (clearLevel s).selected = [] := by
  simp only [clearLevel]
  rw [addToHistory_selected]

theorem undo_selected_cleared (s : EngineState) (h0 : 0 < s.historyIndex)
    (hlt : s.historyIndex - 1 < s.history.length) :
    (undo s).selected = [] := by
  obtain ⟨d', hd'⟩ : ∃ d', s.history[s.historyIndex - 1]? = some d' := by
    rw [List.getElem?_eq_getElem hlt]; exact ⟨_, rfl⟩
  simp only [undo, if_pos h0, hd']

theorem redo_selected_cleared (s : EngineState)
    (hg : s.historyIndex < s.history.length - 1) :
    (redo s).selected = [] := by
  obtain ⟨d', hd'⟩ : ∃ d', s.history[s.historyIndex + 1]? = some d' := by
    rw [List.getElem?_eq_getElem (by omega)]; exact ⟨_, rfl⟩
  simp only [redo, if_pos hg, hd']

/-- C9 amended: the selection stays a subset of the document's object ids
under every listed editor operation except point deletion — the point
deletion branch removes the object without touching the selection, which
can leave a dangling id — and the wholesale document replacements (load,
clear, a restoring undo/redo) clear the selection outright. -/
theorem C9_selection_subset_amended :
    (∀ (s : EngineState) (op : EditorOp), SelectionInv s → ¬ isPointDelete op →
        SelectionInv (applyEditorOp s op)) ∧
    (∀ (objects : List LevelObject) (st : Option LevelSettings) (keep : Bool)
        (s : EngineState), (setLevel objects st keep s).selected = []) ∧
    (∀ s : EngineState, (clearLevel s).selected = []) ∧
    (∀ s : EngineState, 0 < s.historyIndex →
        s.historyIndex - 1 < s.history.length → (undo s).selected = []) ∧
    (∀ s : EngineState, s.historyIndex < s.history.length - 1 →
        (redo s).selected = []) := by
  refine ⟨?_, setLevel_selected, clearLevel_selected,
    undo_selected_cleared, redo_selected_cleared⟩
  intro s op hInv hnpd
  cases op with
  | place tool newId gx gy =>
      show SelectionInv (handlePlaceClick tool newId gx gy s)
      simp only [handlePlaceClick]
      split
      · exact hInv
      split
      · apply selectionInv_addToHistory
        intro i hi
        simp only [List.mem_singleton] at hi
        subst hi
        exact ⟨_, List.mem_append_right _ (List.mem_singleton_self _), rfl⟩
      · exact hInv
  | pointDelete cs dr gx gy => exact absurd trivial hnpd
  | deleteSel =>
      show SelectionInv (deleteSelection s)
      exact selectionInv_of_selected_nil _
        (by simp only [deleteSelection]; rw [addToHistory_selected])
  | move dx dy =>
      show SelectionInv (moveSelectionInternal dx dy s)
      simp only [moveSelectionInternal]
      split
      · apply selectionInv_addToHistory
        intro i hi
        exact ids_of_map _ _ (fun o => by split <;> rfl) i (hInv i hi)
      · exact hInv
  | rotateOne a r =>
      show SelectionInv (rotateSelectionSingle a r s)
      simp only [rotateSelectionSingle]
      split
      · apply selectionInv_addToHistory
        intro i hi
        exact ids_of_map _ _ (fun o => by split <;> rfl) i (hInv i hi)
      · exact hInv
  | rotateMany a c si =>
      show SelectionInv (rotateSelectionMulti a c si s)
      simp only [rotateSelectionMulti]
      split
      · exact hInv
      · split
        · exact selectionInv_addToHistory s hInv
        · apply selectionInv_addToHistory
          intro i hi
          exact ids_of_map _ _ (fun o => by split <;> rfl) i (hInv i hi)
  | dup ids =>
      show SelectionInv (duplicateSelection ids s)
      simp only [duplicateSelection, copySelection]
      have key : ∀ t : EngineState, SelectionInv t →
          SelectionInv (pasteSelection ids t) := by
        intro t ht
        simp only [pasteSelection]
        split
        · exact ht
        · apply selectionInv_addToHistory
          intro i hi
          obtain ⟨o, ho, hoid⟩ := List.mem_map.mp hi
          exact ⟨o, List.mem_append_right _ ho, hoid⟩
      split
      · exact key s hInv
      · exact key _ hInv
  | clearOp =>
      exact selectionInv_of_selected_nil _ (clearLevel_selected s)
  | load objs st k =>
      exact selectionInv_of_selected_nil _ (setLevel_selected objs st k s)
  | undoOp =>
      show SelectionInv (undo s)
      simp only [undo]
      split
      · cases hx : s.history[s.historyIndex - 1]? with
        | some d => intro i hi; simp at hi
        | none => exact hInv
      · exact hInv
  | redoOp =>
      show SelectionInv (redo s)
      simp only [redo]
      split
      · cases hx : s.history[s.historyIndex + 1]? with
        | some d => intro i hi; simp at hi
        | none => exact hInv
      · exact hInv
  | updSettings p =>
      show SelectionInv (updateSettings p s)
      exact selectionInv_addToHistory _ hInv
  | updTrigger p =>
      show SelectionInv (updateSelectedTrigger p s)
      simp only [updateSelectedTrigger]
      cases hh : s.selected.head? with
      | none => exact hInv
      | some id =>
          dsimp only
          cases hr : replaceFirstById id
              (fun o => { o with
                triggerData := some (mergeTriggerData o.triggerData p) })
              s.doc.objects with
          | none => exact hInv
          | some objs =>
              apply selectionInv_addToHistory
              intro i hi
              exact replaceFirstById_keeps_ids id
                (fun o => { o with
                  triggerData := some (mergeTriggerData o.triggerData p) })
                (fun o => rfl) s.doc.objects objs hr i (hInv i hi)
  | updStartPos p =>
      show SelectionInv (updateSelectedStartPos p s)
      simp only [updateSelectedStartPos]
      cases hh : s.selected.head? with
      | none => exact hInv
      | some id =>
          dsimp only
          cases hr : replaceFirstById id
              (fun o => { o with
                startPosData := some (mergeStartPosData o.startPosData p) })
              s.doc.objects with
          | none => exact hInv
          | some objs =>
              apply selectionInv_addToHistory
              intro i hi
              exact replaceFirstById_keeps_ids id
                (fun o => { o with
                  startPosData := some (mergeStartPosData o.startPosData p) })
                (fun o => rfl) s.doc.objects objs hr i (hInv i hi)

/-- The state for the C9 counterexample: one selected Block at cell (0,0). -/
def delState : EngineState :=
  { initEngine ⟨DEFAULT_LEVEL_SETTINGS, [blockAt "a" 0 0]⟩ with selected := ["a"] }

/-- C9 counterexample: point-deleting the selected Block removes it from
the document but leaves its id in the selection, so the selection is not
a subset of the document's object ids after the operation. -/
theorem C9_point_delete_counterexample :
    (handleDeleteClick (fun _ => (1, 0)) false 0 0 delState).doc.objects = [] ∧
    (handleDeleteClick (fun _ => (1, 0)) false 0 0 delState).selected = ["a"] ∧
    ¬ SelectionInv (handleDeleteClick (fun _ => (1, 0)) false 0 0 delState) := by
  have hov : deleteOverlap (fun _ => (1, 0)) ⟨0, 0, TILE_SIZE, TILE_SIZE⟩
      (blockAt "a" 0 0) = true := by
    simp only [deleteOverlap, blockAt, getLocalHitbox, TILE_SIZE]
    norm_num
  have hscan : removeTopmostHit
      (deleteOverlap (fun _ => (1, 0)) ⟨0, 0, TILE_SIZE, TILE_SIZE⟩)
      [blockAt "a" 0 0] = some [] := by
    simp [removeTopmostHit, hov]
  have hres : handleDeleteClick (fun _ => (1, 0)) false 0 0 delState =
      addToHistory { delState with
        doc := { delState.doc with objects := [] }
        lastDeletePos := some (0, 0) } := by
    simp only [handleDeleteClick]
    rw [if_neg (by simp)]
    have hrect : (⟨((0 : ℤ) : ℚ) * TILE_SIZE, ((0 : ℤ) : ℚ) * TILE_SIZE,
        TILE_SIZE, TILE_SIZE⟩ : Rect) = ⟨0, 0, TILE_SIZE, TILE_SIZE⟩ := by
      simp
    have hobjs : delState.doc.objects = [blockAt "a" 0 0] := rfl
    rw [hrect, hobjs, hscan]
  rw [hres]
  refine ⟨by rw [addToHistory_doc], by rw [addToHistory_selected]; rfl, ?_⟩
  intro hInv
  obtain ⟨o, ho, _⟩ := hInv "a" (by rw [addToHistory_selected]; simp [delState])
  rw [addToHistory_doc] at ho
  cases ho

theorem C9_selection_subset_amended_witness :
    SelectionInv (applyEditorOp delState (EditorOp.move 1 0)) := by
  apply C9_selection_subset_amended.1
  · intro i hi
    simp only [delState, initEngine, List.mem_singleton] at hi
    subst hi
    exact ⟨blockAt "a" 0 0, by simp [delState, initEngine], rfl⟩
  · simp [isPointDelete]

/-- Only Trigger objects carry trigger data. -/
def TriggerInv (d : LevelData) : Prop :=
  ∀ o ∈ d.objects, o.triggerData.isSome → o.type = ObjectType.TRIGGER

/-- C10 amended: updateSelectedTrigger shallow-merges into the first
currently-selected object whatever its type, so the only-Triggers-carry-
triggerData invariant is preserved exactly when the caller invokes it with
a Trigger as the first selected object (as the UI does); placement
attaches default trigger data only to Trigger objects unconditionally. -/
theorem C10_triggerData_amended :
    (∀ (p : TriggerPatch) (s : EngineState), TriggerInv s.doc →
        (∀ o ∈ s.doc.objects, s.selected.head? = some o.id →
            o.type = ObjectType.TRIGGER) →
        TriggerInv (updateSelectedTrigger p s).doc) ∧
    (∀ (tool : ObjectType × ℤ) (newId : String) (gx gy : ℤ)
        (s : EngineState), TriggerInv s.doc →
        TriggerInv (handlePlaceClick tool newId gx gy s).doc) := by
  constructor
  · intro p s hInv hsel
    simp only [updateSelectedTrigger]
    cases hh : s.selected.head? with
    | none => exact hInv
    | some id =>
        dsimp only
        cases hr : replaceFirstById id
            (fun o => { o with
              triggerData := some (mergeTriggerData o.triggerData p) })
            s.doc.objects with
        | none => exact hInv
        | some objs =>
            rw [addToHistory_doc]
            intro o ho hsome
            rcases replaceFirstById_mem id _ s.doc.objects objs hr o ho with
              hold | ⟨o2, ho2, hid2, heq⟩
            · exact hInv o hold hsome
            · have : o.type = o2.type := by rw [heq]
              rw [this]
              exact hsel o2 ho2 (by rw [hh, hid2])
  · intro tool newId gx gy s hInv
    simp only [handlePlaceClick]
    split
    · exact hInv
    split
    · rw [addToHistory_doc]
      intro o ho hsome
      rcases List.mem_append.mp ho with hold | hnew
      · exact hInv o hold hsome
      · rw [List.mem_singleton] at hnew
        subst hnew
        by_cases ht : tool.1 = ObjectType.TRIGGER
        · exact ht
        · exfalso
          rw [if_neg ht] at hsome
          simp at hsome
    · exact hInv

/-- C10 counterexample: calling updateSelectedTrigger while a Block is the
first (only) selected object attaches trigger data to the Block, so a
non-Trigger object ends up carrying triggerData. -/
theorem C10_triggerData_counterexample :
    (∃ o ∈ (updateSelectedTrigger
        ⟨some TriggerTarget.groundColor, some ⟨1, 2, 3⟩, some 1, some true⟩
        blockSel).doc.objects,
      o.type = ObjectType.BLOCK ∧ o.triggerData.isSome) ∧
    ¬ TriggerInv (updateSelectedTrigger
        ⟨some TriggerTarget.groundColor, some ⟨1, 2, 3⟩, some 1, some true⟩
        blockSel).doc := by
  have hres : (updateSelectedTrigger
      ⟨some TriggerTarget.groundColor, some ⟨1, 2, 3⟩, some 1, some true⟩
      blockSel).doc.objects =
      [{ blockAt "a" 0 0 with
          triggerData := some ⟨TriggerTarget.groundColor, ⟨1, 2, 3⟩, 1, true⟩ }] := by
    simp only [updateSelectedTrigger, blockSel, initEngine]
    have hh : (["a"] : List String).head? = some "a" := rfl
    rw [hh]
    dsimp only
    have hr : replaceFirstById "a"
        (fun o => { o with
          triggerData := some (mergeTriggerData o.triggerData
            ⟨some TriggerTarget.groundColor, some ⟨1, 2, 3⟩, some 1, some true⟩) })
        [blockAt "a" 0 0] =
        some [{ blockAt "a" 0 0 with
          triggerData := some ⟨TriggerTarget.groundColor, ⟨1, 2, 3⟩, 1, true⟩ }] := by
      simp [replaceFirstById, blockAt, mergeTriggerData]
    rw [hr, addToHistory_doc]
  constructor
  · rw [hres]
    exact ⟨_, List.mem_singleton_self _, rfl, rfl⟩
  · intro hInv
    have := hInv _ (by rw [hres]; exact List.mem_singleton_self _) (by rfl)
    simp [blockAt] at this

theorem C10_triggerData_amended_witness :
    TriggerInv (handlePlaceClick (ObjectType.BLOCK, 1) "n" 0 0
      (initEngine emptyDoc)).doc := by
  apply C10_triggerData_amended.2
  intro o ho
  simp [initEngine, emptyDoc] at ho

/-! ### C1: Cube landing on a full Block under normal gravity -/

/-- C1: a Cube player in normal gravity colliding with a full Block whose
previous-frame bottom edge (current y minus vy, plus height) was at or
above the block top plus a tolerance of max(abs vy, 5) pixels while the
vertical velocity is non-negative ends the resolution snapped to the
block's top face with onGround true, vertical velocity 0 and rotation 0;
under the same gravity any other colliding approach (side or below) kills
the player. -/
theorem C1_cube_block_landing (cosSin : ℚ → ℚ × ℚ) (p : Player)
    (obj : LevelObject)
    (hveh : p.vehicle = VehicleMode.CUBE)
    (hgrav : p.gravityReversed = false)
    (htype : obj.type = ObjectType.BLOCK)
    (hfull : obj.subtype ≠ 3)
    (hcol : checkCollision cosSin p obj = true) :
    ((p.y - p.vy + p.h ≤ obj.y * TILE_SIZE + max |p.vy| 5 ∧ 0 ≤ p.vy) →
        blockResolve p obj =
          { p with y := obj.y * TILE_SIZE - p.h, vy := 0,
                   onGround := true, rotation := 0 }) ∧
    (¬ (p.y - p.vy + p.h ≤ obj.y * TILE_SIZE + max |p.vy| 5 ∧ 0 ≤ p.vy) →
        (blockResolve p obj).dead = true) := by
  have hns : p.vehicle ≠ VehicleMode.SHIP := by rw [hveh]; decide
  simp only [blockResolve, if_neg hns, cubeBlockResolve, if_neg hfull, hgrav,
    Bool.not_false, if_true]
  constructor
  · intro hcond
    rw [if_pos hcond]
  · intro hcond
    rw [if_neg hcond]
    rfl

/-- The concrete landing instance: a descending cube (vy = 10) overlapping
the top of a full Block at grid cell (2, 10). -/
def pW : Player :=
  { x := 90, y := 370, w := 36, h := 36, vx := 32/5, vy := 10, rotation := 1
    onGround := false, dead := false, finished := false
    vehicle := VehicleMode.CUBE, gravityReversed := false }

def objW : LevelObject := blockAt "k" 2 10

theorem C1_cube_block_landing_witness :
    blockResolve pW objW =
      { pW with y := objW.y * TILE_SIZE - pW.h, vy := 0,
                onGround := true, rotation := 0 } := by
  have hcol : checkCollision (fun _ => (1, 0)) pW objW = true := by
    simp only [checkCollision, pW, objW, blockAt, getLocalHitbox, TILE_SIZE]
    norm_num
  refine (C1_cube_block_landing (fun _ => (1, 0)) pW objW rfl rfl rfl
    (by decide) hcol).1 ?_
  constructor
  · simp only [pW, objW, blockAt, TILE_SIZE]
    rw [show |(10 : ℚ)| = 10 from abs_of_nonneg (by norm_num),
      show max (10 : ℚ) 5 = 10 from max_eq_left (by norm_num)]
    norm_num
  · simp only [pW]
    norm_num

end Geo
